import Mathlib

/-!
Shallow embedding of the incineratorlabs burn bots: the Jupiter buy-and-burn
cycle of `burn.js` and the daily half-burn variants. External calls (RPC
queries, HTTP requests, transaction submissions) are modelled as
environment-supplied outcomes indexed by attempt number where the code
retries them; a thrown JS error is modelled with `Except`.
-/

/-- A thrown JS error: its `message` and, for axios HTTP errors, the
optional `error.response.status`. -/
structure JsError where
  message : String
  responseStatus : Option Nat
deriving DecidableEq, Repr

deriving instance DecidableEq for Except

/-- List-level check that `pat` is a prefix of `l`. -/
def seqStarts : List Char → List Char → Bool
  | [], _ => true
  | _ :: _, [] => false
  | a :: as, b :: bs => (a == b) && seqStarts as bs

/-- List-level check that `pat` occurs contiguously inside `l`. -/
def seqContains (pat : List Char) : List Char → Bool
  | [] => seqStarts pat []
  | b :: bs => seqStarts pat (b :: bs) || seqContains pat bs

/-- JS `s.includes(pat)`: substring containment. -/
def strIncludes (s pat : String) : Bool :=
  seqContains pat.data s.data

/-- True when an attempt outcome is a thrown error whose message contains
"429", the condition `rpcWithRetry` retries on. -/
def resultIs429 {α : Type} : Except JsError α → Bool
  | .error e => strIncludes e.message "429"
  | .ok _ => false

/-- True when an attempt outcome is a thrown error with HTTP response
status 429, the condition `fetchWithRetry` retries on. -/
def resultStatus429 {α : Type} : Except JsError α → Bool
  | .error e => e.responseStatus == some 429
  | .ok _ => false

/-- True when an attempt outcome is a thrown error of any kind, the
condition the daily-burn `retry` helper retries on. -/
def resultIsErr {α : Type} : Except JsError α → Bool
  | .error _ => true
  | .ok _ => false

/-- Loop of `rpcWithRetry` from `burn.js`: `fn attempt` is the outcome of
the wrapped RPC call on that attempt, `fuel` is the number of remaining
loop iterations (`maxRetries - attempt`). Returns the result together with
the list of back-off delays slept. -/
def rpcWithRetryGo {α : Type} (fn : Nat → Except JsError α) (baseDelay attempt : Nat) :
    Nat → Except JsError α × List Nat
  | 0 => (.error { message := "Max retries exceeded.", responseStatus := none }, [])
  | fuel + 1 =>
    match fn attempt with
    | .ok v => (.ok v, [])
    | .error e =>
      if strIncludes e.message "429" then
        let next := rpcWithRetryGo fn baseDelay (attempt + 1) fuel
        (next.1, baseDelay * 2 ^ attempt :: next.2)
      else (.error e, [])

/-- `rpcWithRetry(fn, maxRetries, baseDelay)` from `burn.js` (defaults in
the source: `maxRetries = 5`, `baseDelay = 500`). -/
def rpcWithRetry {α : Type} (fn : Nat → Except JsError α) (maxRetries baseDelay : Nat) :
    Except JsError α × List Nat :=
  rpcWithRetryGo fn baseDelay 0 maxRetries

/-- The axios call `fetchWithRetry` makes on one attempt: `axios.get` for
method "GET", `axios.post` for "POST". -/
def axiosDispatch {α : Type} (method : String) (doGet doPost : Nat → Except JsError α)
    (attempt : Nat) : Except JsError α :=
  if method = "GET" then doGet attempt else doPost attempt

/-- Loop of `fetchWithRetry` from `burn.js`. A method other than GET or
POST makes the loop body a no-op, so the loop falls through to the
terminal error. -/
def fetchWithRetryGo {α : Type} (method : String) (doGet doPost : Nat → Except JsError α)
    (baseDelay attempt : Nat) : Nat → Except JsError α × List Nat
  | 0 => (.error { message := "Max retries exceeded.", responseStatus := none }, [])
  | fuel + 1 =>
    if method = "GET" ∨ method = "POST" then
      match axiosDispatch method doGet doPost attempt with
      | .ok v => (.ok v, [])
      | .error e =>
        if e.responseStatus == some 429 then
          let next := fetchWithRetryGo method doGet doPost baseDelay (attempt + 1) fuel
          (next.1, baseDelay * 2 ^ attempt :: next.2)
        else (.error e, [])
    else fetchWithRetryGo method doGet doPost baseDelay (attempt + 1) fuel

/-- `fetchWithRetry(method, url, options, maxRetries, baseDelay)` from
`burn.js`; the axios transports for the given url/options are supplied by
the environment. -/
def fetchWithRetry {α : Type} (method : String) (doGet doPost : Nat → Except JsError α)
    (maxRetries baseDelay : Nat) : Except JsError α × List Nat :=
  fetchWithRetryGo method doGet doPost baseDelay 0 maxRetries

/-- Loop of the daily-burn `retry(fn, retries, delayMs)` helper: retries on
any error, sleeping the fixed `delayMs` between attempts, and rethrows the
last error itself once attempts are exhausted. A `retries` of 0 makes the
JS function return `undefined`, modelled as `.ok none`. -/
def retryGo {α : Type} (fn : Nat → Except JsError α) (delayMs attempt : Nat) :
    Nat → Except JsError (Option α) × List Nat
  | 0 => (.ok none, [])
  | fuel + 1 =>
    match fn attempt with
    | .ok v => (.ok (some v), [])
    | .error e =>
      if fuel = 0 then (.error e, [])
      else
        let next := retryGo fn delayMs (attempt + 1) fuel
        (next.1, delayMs :: next.2)

/-- `retry(fn, retries, delayMs)` from the daily-burn variant (defaults in
the source: `retries = 3`, `delayMs = 5000`). -/
def retry {α : Type} (fn : Nat → Except JsError α) (retries delayMs : Nat) :
    Except JsError (Option α) × List Nat :=
  retryGo fn delayMs 0 retries

/-- Observable side effects of a cycle, in order of occurrence: the claim
transaction submission, the quote request (with the exact-in amount), the
swap-instructions request, the swap transaction submission, the burn
instruction construction (with its amount), and the burn transaction
submission. -/
inductive Effect
  | claimSubmitted
  | quoteRequested (amount : Int)
  | swapInstructionsRequested
  | swapTxSent
  | burnBuilt (amount : Nat)
  | burnTxSent
deriving DecidableEq, Repr

/-- `getTokenAccountBalance` shared by all three variants: `getAccount`
either yields the account's amount or throws (missing or uninitialized
account), in which case the function returns `BigInt(0)` instead of
rethrowing. -/
def getTokenAccountBalance (getAccount : Except JsError Nat) : Nat :=
  match getAccount with
  | .ok amount => amount
  | .error _ => 0

/-- The Jupiter quote body: `quote.routes` may be absent (`none`) or an
array of routes; route contents are irrelevant to the control flow. -/
structure Quote where
  routes : Option (List Unit)
deriving DecidableEq, Repr

/-- Environment of one `executeJupiterSwap` call: outcomes of the quote
fetch per attempt (GET and the unused POST transport of `fetchWithRetry`),
the swap-instructions fetch, the deserialize-and-sign step, and the swap
transaction send and confirm. -/
structure SwapEnv where
  quoteGet : Nat → Except JsError Quote
  quotePost : Nat → Except JsError Quote
  swapInstructionsFetch : Except JsError String
  deserializeTx : Except JsError Unit
  sendTransaction : Except JsError String
  confirmTransaction : Except JsError Unit

/-- Result of `executeJupiterSwap`: the txid on success, or `null` — which
the source reaches on two distinct logged paths, the explicit no-route
check and the catch-all error handler. -/
inductive SwapOutcome
  | success (txid : String)
  | noRoute
  | failed (msg : String)
deriving DecidableEq, Repr

/-- `executeJupiterSwap(inputMint, outputMint, amountLamports)` from
`burn.js`: fetch a quote with retries, abort with no-route when
`quote.routes` is missing or empty, then fetch swap instructions,
deserialize, sign, send and confirm; every thrown error is caught by the
function's own handler and becomes a `failed` (null) outcome. -/
def executeJupiterSwap (amountLamports : Int) (env : SwapEnv) : SwapOutcome × List Effect :=
  match (fetchWithRetry "GET" env.quoteGet env.quotePost 5 500).1 with
  | .error e => (.failed e.message, [.quoteRequested amountLamports])
  | .ok quote =>
    match quote.routes with
    | none => (.noRoute, [.quoteRequested amountLamports])
    | some [] => (.noRoute, [.quoteRequested amountLamports])
    | some (_ :: _) =>
      match env.swapInstructionsFetch with
      | .error e => (.failed e.message, [.quoteRequested amountLamports, .swapInstructionsRequested])
      | .ok _ =>
        match env.deserializeTx with
        | .error e => (.failed e.message, [.quoteRequested amountLamports, .swapInstructionsRequested])
        | .ok _ =>
          match env.sendTransaction with
          | .error e =>
            (.failed e.message,
             [.quoteRequested amountLamports, .swapInstructionsRequested, .swapTxSent])
          | .ok txid =>
            match env.confirmTransaction with
            | .error e =>
              (.failed e.message,
               [.quoteRequested amountLamports, .swapInstructionsRequested, .swapTxSent])
            | .ok _ =>
              (.success txid,
               [.quoteRequested amountLamports, .swapInstructionsRequested, .swapTxSent])

/-- Environment of one `claimPumpFunCreatorFee` call: the
`getLatestBlockhash` outcomes per retry attempt and the
`sendAndConfirmTransaction` outcome for the claim transaction. -/
structure ClaimEnv where
  blockhashAttempts : Nat → Except JsError String
  sendAndConfirm : Except JsError String

/-- `claimPumpFunCreatorFee()` from `burn.js`: builds the fixed claim
instruction, fetches a blockhash through `rpcWithRetry` (a failure there
is thrown to the caller), then submits; a submission failure is caught
inside the function and only logged. -/
def claimPumpFunCreatorFee (env : ClaimEnv) : Except JsError Unit × List Effect :=
  match (rpcWithRetry env.blockhashAttempts 5 500).1 with
  | .error e => (.error e, [])
  | .ok _ =>
    match env.sendAndConfirm with
    | .ok _ => (.ok (), [.claimSubmitted])
    | .error _ => (.ok (), [.claimSubmitted])

/-- Environment of one `buyAndBurnToken` cycle. `minBalanceSol` stands for
the configured `MIN_BALANCE_SOL = BURN_RATIO * 1e9` reserve.
`tokenAccountPreSwap` is the token account's state before the swap; the
code never reads it — the balance used for the burn is read after the
swap, from `tokenAccountPostSwap`. -/
structure CycleEnv where
  pumpswapReward : Bool
  claim : ClaimEnv
  getBalance : Except JsError Int
  minBalanceSol : Int
  swap : SwapEnv
  tokenAccountPreSwap : Except JsError Nat
  tokenAccountPostSwap : Except JsError Nat
  burnBlockhashAttempts : Nat → Except JsError String
  burnSend : Except JsError String
  burnConfirm : Except JsError Unit

/-- Reported outcome of one `buyAndBurnToken` cycle, each one matching a
distinct log line of the source. -/
inductive CycleResult
  | success (txid : String)
  | insufficientBalance
  | noRoute
  | swapFailed (msg : String)
  | zeroTokenBalance
  | burnFailed (msg : String)
  | errorCaught (msg : String)
deriving DecidableEq, Repr

/-- The reward-claim step at the top of `buyAndBurnToken`: runs the claim
only when `PUMPSWAP_REWARD` is set. -/
def claimStep (env : CycleEnv) : Except JsError Unit × List Effect :=
  if env.pumpswapReward then claimPumpFunCreatorFee env.claim else (.ok (), [])

/-- Body of `buyAndBurnToken` (everything inside the outer `try`): claim
step, native balance check against the reserve, Jupiter swap, fresh
post-swap token balance read, burn instruction construction and burn
submission. An `.error` result is an exception leaving the `try` block;
the burn send/confirm has its own inner handler, so its failure yields a
normal `burnFailed` result. -/
def buyAndBurnTokenBody (env : CycleEnv) : Except JsError CycleResult × List Effect :=
  let claimed := claimStep env
  match claimed.1 with
  | .error e => (.error e, claimed.2)
  | .ok _ =>
    match env.getBalance with
    | .error e => (.error e, claimed.2)
    | .ok balance =>
      let amountToUse := balance - env.minBalanceSol
      if amountToUse ≤ 0 then (.ok .insufficientBalance, claimed.2)
      else
        let swapped := executeJupiterSwap amountToUse env.swap
        match swapped.1 with
        | .noRoute => (.ok .noRoute, claimed.2 ++ swapped.2)
        | .failed m => (.ok (.swapFailed m), claimed.2 ++ swapped.2)
        | .success txid =>
          let tokenBalance := getTokenAccountBalance env.tokenAccountPostSwap
          if tokenBalance = 0 then (.ok .zeroTokenBalance, claimed.2 ++ swapped.2)
          else
            let tr := claimed.2 ++ swapped.2 ++ [Effect.burnBuilt tokenBalance]
            match (rpcWithRetry env.burnBlockhashAttempts 5 500).1 with
            | .error e => (.error e, tr)
            | .ok _ =>
              match env.burnSend with
              | .error e => (.ok (.burnFailed e.message), tr ++ [Effect.burnTxSent])
              | .ok _ =>
                match env.burnConfirm with
                | .error e => (.ok (.burnFailed e.message), tr ++ [Effect.burnTxSent])
                | .ok _ => (.ok (.success txid), tr ++ [Effect.burnTxSent])

/-- `buyAndBurnToken()` from `burn.js`: the body wrapped in the outer
`try`/`catch`, which converts any thrown error into a logged outcome
instead of rethrowing to the scheduler. -/
def buyAndBurnToken (env : CycleEnv) : CycleResult × List Effect :=
  match buyAndBurnTokenBody env with
  | (.ok r, tr) => (r, tr)
  | (.error e, tr) => (.errorCaught e.message, tr)

namespace DailyBurn

/-- Environment of one `burnHalfTokenBalance` cycle of the plain daily-burn
variant: the `getAccount` read of the token account, the blockhash fetch,
and the burn transaction submission. -/
structure Env where
  tokenAccount : Except JsError Nat
  blockhash : Except JsError String
  sendAndConfirm : Except JsError String
deriving DecidableEq, Repr

/-- Reported outcome of one daily half-burn cycle. -/
inductive Result
  | success (sig : String)
  | noTokens
  | errorCaught (msg : String)
deriving DecidableEq, Repr

/-- Body of the plain `burnHalfTokenBalance` (inside its `try`): read the
token balance (0 on a missing account), abort when it is zero, burn
`tokenBalance / BigInt(2)` — the instruction is built before the blockhash
fetch — and submit. -/
def burnHalfTokenBalanceBody (env : Env) : Except JsError Result × List Effect :=
  let tokenBalance := getTokenAccountBalance env.tokenAccount
  if tokenBalance = 0 then (.ok .noTokens, [])
  else
    let burnAmount := tokenBalance / 2
    match env.blockhash with
    | .error e => (.error e, [.burnBuilt burnAmount])
    | .ok _ =>
      match env.sendAndConfirm with
      | .error e => (.error e, [.burnBuilt burnAmount, .burnTxSent])
      | .ok sig => (.ok (.success sig), [.burnBuilt burnAmount, .burnTxSent])

/-- `burnHalfTokenBalance()` of the plain daily-burn variant: the body
wrapped in its `try`/`catch`, converting any thrown error into a logged
outcome. -/
def burnHalfTokenBalance (env : Env) : Result × List Effect :=
  match burnHalfTokenBalanceBody env with
  | (.ok r, tr) => (r, tr)
  | (.error e, tr) => (.errorCaught e.message, tr)

end DailyBurn

namespace DailyBurnTweet

/-- Environment of one `burnHalfTokenBalance` cycle of the tweeting
daily-burn variant: the token account read, then per-attempt outcomes of
the retried burn submission (blockhash + build + send + confirm as one
unit) and of the retried tweet. -/
structure Env where
  tokenAccount : Except JsError Nat
  submitAttempts : Nat → Except JsError String
  tweetAttempts : Nat → Except JsError Unit

/-- Body of the tweeting `burnHalfTokenBalance` (inside its `try`): zero
balance aborts; the burn submission runs under `retry(·, 3, 5000)`, whose
exhaustion rethrows the last underlying error into this body; then the
tweet runs under the same `retry`. -/
def burnHalfTokenBalanceBody (env : Env) : Except JsError DailyBurn.Result :=
  let tokenBalance := getTokenAccountBalance env.tokenAccount
  if tokenBalance = 0 then .ok .noTokens
  else
    match (retry env.submitAttempts 3 5000).1 with
    | .error e => .error e
    | .ok osig =>
      match (retry env.tweetAttempts 3 5000).1 with
      | .error e => .error e
      | .ok _ => .ok (.success (osig.getD "undefined"))

/-- `burnHalfTokenBalance()` of the tweeting daily-burn variant: the body
wrapped in its `try`/`catch`. -/
def burnHalfTokenBalance (env : Env) : DailyBurn.Result :=
  match burnHalfTokenBalanceBody env with
  | .ok r => r
  | .error e => .errorCaught e.message

end DailyBurnTweet

/-- Shifting the start attempt by one in the exponential delay schedule. -/
lemma range_map_shift (d a k : Nat) :
    (List.range (k + 1)).map (fun j => d * 2 ^ (a + j)) =
      d * 2 ^ a :: (List.range k).map (fun j => d * 2 ^ (a + 1 + j)) := by
  rw [List.range_succ_eq_map, List.map_cons, List.map_map]
  have hfun : ((fun j => d * 2 ^ (a + j)) ∘ Nat.succ) = fun j => d * 2 ^ (a + 1 + j) := by
    funext j
    show d * 2 ^ (a + (j + 1)) = d * 2 ^ (a + 1 + j)
    have hj : a + (j + 1) = a + 1 + j := by omega
    rw [hj]
  rw [hfun, Nat.add_zero]

/-- `rpcWithRetryGo` returns the first success, sleeping the exponential
schedule for each preceding 429 failure. -/
lemma rpcGo_success_after {α : Type} (fn : Nat → Except JsError α) (d : Nat) (v : α) :
    ∀ (k a fuel : Nat), k < fuel →
      (∀ i, i < k → resultIs429 (fn (a + i)) = true) →
      fn (a + k) = .ok v →
      rpcWithRetryGo fn d a fuel = (.ok v, (List.range k).map fun j => d * 2 ^ (a + j)) := by
  intro k
  induction k with
  | zero =>
    intro a fuel hf _ hok
    match fuel, hf with
    | fuel + 1, _ =>
      rw [Nat.add_zero] at hok
      simp [rpcWithRetryGo, hok]
  | succ k ih =>
    intro a fuel hf h429 hok
    match fuel, hf with
    | fuel + 1, hf =>
      have h0 : resultIs429 (fn a) = true := by simpa using h429 0 (Nat.succ_pos k)
      cases he : fn a with
      | ok w => rw [he] at h0; simp [resultIs429] at h0
      | error e =>
        have h0' : strIncludes e.message "429" = true := by
          rw [he] at h0; simpa [resultIs429] using h0
        have hrec := ih (a + 1) fuel (by omega)
          (fun i hi => by
            have hh : a + 1 + i = a + (i + 1) := by omega
            rw [hh]; exact h429 (i + 1) (by omega))
          (by
            have hh : a + 1 + k = a + (k + 1) := by omega
            rw [hh]; exact hok)
        simp [rpcWithRetryGo, he, h0', hrec, range_map_shift]

/-- `rpcWithRetryGo` with every attempt rate-limited: the terminal error,
after the full exponential delay schedule. -/
lemma rpcGo_exhaust {α : Type} (fn : Nat → Except JsError α) (d : Nat) :
    ∀ (fuel a : Nat), (∀ i, i < fuel → resultIs429 (fn (a + i)) = true) →
      rpcWithRetryGo fn d a fuel =
        (.error { message := "Max retries exceeded.", responseStatus := none },
         (List.range fuel).map fun j => d * 2 ^ (a + j)) := by
  intro fuel
  induction fuel with
  | zero => intro a _; simp [rpcWithRetryGo]
  | succ fuel ih =>
    intro a h429
    have h0 : resultIs429 (fn a) = true := by simpa using h429 0 (Nat.succ_pos fuel)
    cases he : fn a with
    | ok w => rw [he] at h0; simp [resultIs429] at h0
    | error e =>
      have h0' : strIncludes e.message "429" = true := by
        rw [he] at h0; simpa [resultIs429] using h0
      have hrec := ih (a + 1) (fun i hi => by
        have hh : a + 1 + i = a + (i + 1) := by omega
        rw [hh]; exact h429 (i + 1) (by omega))
      simp [rpcWithRetryGo, he, h0', hrec, range_map_shift]

/-- `rpcWithRetryGo` propagates a non-429 error immediately, with no
sleeps. -/
lemma rpcGo_non429 {α : Type} (fn : Nat → Except JsError α) (d a fuel : Nat) (e : JsError)
    (he : fn a = .error e) (h : strIncludes e.message "429" = false) :
    rpcWithRetryGo fn d a (fuel + 1) = (.error e, []) := by
  simp [rpcWithRetryGo, he, h]

/-- `fetchWithRetryGo` returns the first success, sleeping the exponential
schedule for each preceding status-429 failure. -/
lemma fetchGo_success_after {α : Type} (method : String) (doGet doPost : Nat → Except JsError α)
    (d : Nat) (v : α) (hm : method = "GET" ∨ method = "POST") :
    ∀ (k a fuel : Nat), k < fuel →
      (∀ i, i < k → resultStatus429 (axiosDispatch method doGet doPost (a + i)) = true) →
      axiosDispatch method doGet doPost (a + k) = .ok v →
      fetchWithRetryGo method doGet doPost d a fuel =
        (.ok v, (List.range k).map fun j => d * 2 ^ (a + j)) := by
  intro k
  induction k with
  | zero =>
    intro a fuel hf _ hok
    match fuel, hf with
    | fuel + 1, _ =>
      rw [Nat.add_zero] at hok
      simp [fetchWithRetryGo, hm, hok]
  | succ k ih =>
    intro a fuel hf h429 hok
    match fuel, hf with
    | fuel + 1, hf =>
      have h0 : resultStatus429 (axiosDispatch method doGet doPost a) = true := by
        simpa using h429 0 (Nat.succ_pos k)
      cases he : axiosDispatch method doGet doPost a with
      | ok w => rw [he] at h0; simp [resultStatus429] at h0
      | error e =>
        have h0' : (e.responseStatus == some 429) = true := by
          rw [he] at h0; simpa [resultStatus429] using h0
        have hrec := ih (a + 1) fuel (by omega)
          (fun i hi => by
            have hh : a + 1 + i = a + (i + 1) := by omega
            rw [hh]; exact h429 (i + 1) (by omega))
          (by
            have hh : a + 1 + k = a + (k + 1) := by omega
            rw [hh]; exact hok)
        simp [fetchWithRetryGo, hm, he, h0', hrec, range_map_shift]

/-- `fetchWithRetryGo` with every attempt rate-limited: the terminal error,
after the full exponential delay schedule. -/
lemma fetchGo_exhaust {α : Type} (method : String) (doGet doPost : Nat → Except JsError α)
    (d : Nat) (hm : method = "GET" ∨ method = "POST") :
    ∀ (fuel a : Nat),
      (∀ i, i < fuel → resultStatus429 (axiosDispatch method doGet doPost (a + i)) = true) →
      fetchWithRetryGo method doGet doPost d a fuel =
        (.error { message := "Max retries exceeded.", responseStatus := none },
         (List.range fuel).map fun j => d * 2 ^ (a + j)) := by
  intro fuel
  induction fuel with
  | zero => intro a _; simp [fetchWithRetryGo]
  | succ fuel ih =>
    intro a h429
    have h0 : resultStatus429 (axiosDispatch method doGet doPost a) = true := by
      simpa using h429 0 (Nat.succ_pos fuel)
    cases he : axiosDispatch method doGet doPost a with
    | ok w => rw [he] at h0; simp [resultStatus429] at h0
    | error e =>
      have h0' : (e.responseStatus == some 429) = true := by
        rw [he] at h0; simpa [resultStatus429] using h0
      have hrec := ih (a + 1) (fun i hi => by
        have hh : a + 1 + i = a + (i + 1) := by omega
        rw [hh]; exact h429 (i + 1) (by omega))
      simp [fetchWithRetryGo, hm, he, h0', hrec, range_map_shift]

/-- `fetchWithRetryGo` propagates a non-429 error immediately, with no
sleeps. -/
lemma fetchGo_non429 {α : Type} (method : String) (doGet doPost : Nat → Except JsError α)
    (d a fuel : Nat) (e : JsError) (hm : method = "GET" ∨ method = "POST")
    (he : axiosDispatch method doGet doPost a = .error e)
    (h : (e.responseStatus == some 429) = false) :
    fetchWithRetryGo method doGet doPost d a (fuel + 1) = (.error e, []) := by
  simp [fetchWithRetryGo, hm, he, h]

/-- `retryGo` returns the first success, sleeping the fixed delay for each
preceding failure of any kind. -/
lemma retryGo_success_after {α : Type} (fn : Nat → Except JsError α) (d : Nat) (v : α) :
    ∀ (k a fuel : Nat), k < fuel →
      (∀ i, i < k → resultIsErr (fn (a + i)) = true) →
      fn (a + k) = .ok v →
      retryGo fn d a fuel = (.ok (some v), List.replicate k d) := by
  intro k
  induction k with
  | zero =>
    intro a fuel hf _ hok
    match fuel, hf with
    | fuel + 1, _ =>
      rw [Nat.add_zero] at hok
      simp [retryGo, hok]
  | succ k ih =>
    intro a fuel hf herr hok
    match fuel, hf with
    | fuel + 1, hf =>
      have h0 : resultIsErr (fn a) = true := by simpa using herr 0 (Nat.succ_pos k)
      cases he : fn a with
      | ok w => rw [he] at h0; simp [resultIsErr] at h0
      | error e =>
        have hfz : fuel ≠ 0 := by omega
        have hrec := ih (a + 1) fuel (by omega)
          (fun i hi => by
            have hh : a + 1 + i = a + (i + 1) := by omega
            rw [hh]; exact herr (i + 1) (by omega))
          (by
            have hh : a + 1 + k = a + (k + 1) := by omega
            rw [hh]; exact hok)
        simp [retryGo, he, hfz, hrec, List.replicate_succ]

/-- `retryGo` with every attempt failing: rethrows the last underlying
error itself, after fixed-delay sleeps between attempts. -/
lemma retryGo_exhaust {α : Type} (fn : Nat → Except JsError α) (d : Nat) (es : Nat → JsError) :
    ∀ (fuel a : Nat), 0 < fuel →
      (∀ i, i < fuel → fn (a + i) = .error (es (a + i))) →
      retryGo fn d a fuel = (.error (es (a + fuel - 1)), List.replicate (fuel - 1) d) := by
  intro fuel
  induction fuel with
  | zero => intro a h0 _; omega
  | succ fuel ih =>
    intro a _ herr
    have h0 : fn a = .error (es a) := by simpa using herr 0 (Nat.succ_pos fuel)
    by_cases hfz : fuel = 0
    · subst hfz
      simp [retryGo, h0]
    · have hrec := ih (a + 1) (Nat.pos_of_ne_zero hfz) (fun i hi => by
        have hh : a + 1 + i = a + (i + 1) := by omega
        rw [hh]; exact herr (i + 1) (by omega))
      have hidx : a + 1 + fuel - 1 = a + fuel := by omega
      rw [hidx] at hrec
      have hgoal : a + (fuel + 1) - 1 = a + fuel := by omega
      have hrep : fuel - 1 + 1 = fuel := by omega
      have hrepl : List.replicate fuel d = d :: List.replicate (fuel - 1) d := by
        conv_lhs => rw [← hrep]
        rw [List.replicate_succ]
      simp [retryGo, h0, hfz, hrec, hgoal, Nat.add_sub_cancel, hrepl]

/-- The only effect a claim invocation can produce is its own transaction
submission. -/
lemma claim_trace_only (cEnv : ClaimEnv) :
    ∀ x ∈ (claimPumpFunCreatorFee cEnv).2, x = Effect.claimSubmitted := by
  unfold claimPumpFunCreatorFee
  split
  · simp
  · split <;> simp

/-- The only effect the reward-claim step can produce is the claim
transaction submission. -/
lemma claimStep_trace_only (env : CycleEnv) :
    ∀ x ∈ (claimStep env).2, x = Effect.claimSubmitted := by
  unfold claimStep
  split
  · exact claim_trace_only env.claim
  · simp

/-- The effects of one `executeJupiterSwap` call are limited to the quote
request, the swap-instructions request and the swap submission. -/
lemma swap_trace_shape (amt : Int) (sEnv : SwapEnv) :
    ∀ x ∈ (executeJupiterSwap amt sEnv).2,
      x = Effect.quoteRequested amt ∨ x = Effect.swapInstructionsRequested ∨
        x = Effect.swapTxSent := by
  unfold executeJupiterSwap
  repeat' split
  all_goals (intro x hx; simp at hx; tauto)

/-- A quote with a missing or empty route collection makes
`executeJupiterSwap` return the no-route outcome after only the quote
request. -/
lemma swap_noRoute (amt : Int) (sEnv : SwapEnv) (q : Quote)
    (hq : (fetchWithRetry "GET" sEnv.quoteGet sEnv.quotePost 5 500).1 = .ok q)
    (hr : q.routes = none ∨ q.routes = some []) :
    executeJupiterSwap amt sEnv = (.noRoute, [.quoteRequested amt]) := by
  rcases hr with h | h <;> simp [executeJupiterSwap, hq, h]

/-- The outer catch of `buyAndBurnToken` never changes the effect trace. -/
lemma buyAndBurnToken_trace (env : CycleEnv) :
    (buyAndBurnToken env).2 = (buyAndBurnTokenBody env).2 := by
  unfold buyAndBurnToken
  rcases h : buyAndBurnTokenBody env with ⟨r, tr⟩
  cases r <;> simp

/-- The outer catch of the plain daily burn never changes the effect
trace. -/
lemma dailyBurn_trace (env : DailyBurn.Env) :
    (DailyBurn.burnHalfTokenBalance env).2 = (DailyBurn.burnHalfTokenBalanceBody env).2 := by
  unfold DailyBurn.burnHalfTokenBalance
  rcases h : DailyBurn.burnHalfTokenBalanceBody env with ⟨r, tr⟩
  cases r <;> simp

/-- C7: reading the token-account balance of a missing or uninitialized
token account (a `getAccount` that throws) returns 0 rather than raising,
and an existing account's amount is returned unchanged. -/
theorem C7_missing_account_reads_zero :
    (∀ e : JsError, getTokenAccountBalance (.error e) = 0) ∧
    (∀ a : Nat, getTokenAccountBalance (.ok a) = a) :=
  ⟨fun _ => rfl, fun _ => rfl⟩

/-- C2: whenever the native balance read yields `b` with computable spend
`b - reserve ≤ 0` (and the optional claim step did not itself throw), the
cycle reports the insufficient-balance outcome and issues no quote request
and no swap submission. -/
theorem C2_insufficient_balance_aborts :
    ∀ (env : CycleEnv) (b : Int),
      (claimStep env).1 = .ok () →
      env.getBalance = .ok b →
      b - env.minBalanceSol ≤ 0 →
      (buyAndBurnToken env).1 = CycleResult.insufficientBalance ∧
      (∀ a : Int, Effect.quoteRequested a ∉ (buyAndBurnToken env).2) ∧
      Effect.swapTxSent ∉ (buyAndBurnToken env).2 := by
  intro env b hclaim hbal hle
  have hbody : buyAndBurnTokenBody env = (.ok .insufficientBalance, (claimStep env).2) := by
    simp [buyAndBurnTokenBody, hclaim, hbal, hle]
  have hw : buyAndBurnToken env = (.insufficientBalance, (claimStep env).2) := by
    simp [buyAndBurnToken, hbody]
  refine ⟨by simp [hw], ?_, ?_⟩
  · intro a ha
    rw [hw] at ha
    have := claimStep_trace_only env _ ha
    simp at this
  · intro hmem
    rw [hw] at hmem
    have := claimStep_trace_only env _ hmem
    simp at this

/-- C5: whenever the quote response arrives with a missing or empty route
collection, the cycle reports the no-route outcome, requests no swap
instructions and submits neither a swap nor a burn transaction; the
no-route condition ends the cycle rather than being retried. -/
theorem C5_no_route_aborts :
    ∀ (env : CycleEnv) (b : Int) (q : Quote),
      (claimStep env).1 = .ok () →
      env.getBalance = .ok b →
      ¬(b - env.minBalanceSol ≤ 0) →
      (fetchWithRetry "GET" env.swap.quoteGet env.swap.quotePost 5 500).1 = .ok q →
      (q.routes = none ∨ q.routes = some []) →
      (buyAndBurnToken env).1 = CycleResult.noRoute ∧
      (buyAndBurnToken env).2 = (claimStep env).2 ++
        [Effect.quoteRequested (b - env.minBalanceSol)] ∧
      Effect.swapInstructionsRequested ∉ (buyAndBurnToken env).2 ∧
      Effect.swapTxSent ∉ (buyAndBurnToken env).2 ∧
      Effect.burnTxSent ∉ (buyAndBurnToken env).2 := by
  intro env b q hclaim hbal hgt hq hroutes
  have hswap := swap_noRoute (b - env.minBalanceSol) env.swap q hq hroutes
  have hbody : buyAndBurnTokenBody env =
      (.ok .noRoute, (claimStep env).2 ++ [Effect.quoteRequested (b - env.minBalanceSol)]) := by
    simp [buyAndBurnTokenBody, hclaim, hbal, hgt, hswap]
  have hw : buyAndBurnToken env =
      (.noRoute, (claimStep env).2 ++ [Effect.quoteRequested (b - env.minBalanceSol)]) := by
    simp [buyAndBurnToken, hbody]
  refine ⟨by simp [hw], by simp [hw], ?_, ?_, ?_⟩ <;>
    (intro hmem
     rw [hw] at hmem
     simp at hmem
     have := claimStep_trace_only env _ hmem
     simp at this)

/-- C6: whenever the freshly re-read post-swap token balance is zero, the
cycle reports the zero-token-balance outcome and builds no burn
instruction; and the cycle is entirely insensitive to the pre-swap token
account state, which the code never reads. -/
theorem C6_zero_token_balance_aborts :
    (∀ (env : CycleEnv) (b : Int) (txid : String),
      (claimStep env).1 = .ok () →
      env.getBalance = .ok b →
      ¬(b - env.minBalanceSol ≤ 0) →
      (executeJupiterSwap (b - env.minBalanceSol) env.swap).1 = .success txid →
      getTokenAccountBalance env.tokenAccountPostSwap = 0 →
      (buyAndBurnToken env).1 = CycleResult.zeroTokenBalance ∧
      (∀ a : Nat, Effect.burnBuilt a ∉ (buyAndBurnToken env).2) ∧
      Effect.burnTxSent ∉ (buyAndBurnToken env).2) ∧
    (∀ (env : CycleEnv) (pre : Except JsError Nat),
      buyAndBurnToken { env with tokenAccountPreSwap := pre } = buyAndBurnToken env) := by
  constructor
  · intro env b txid hclaim hbal hgt hswap hzero
    have hbody : buyAndBurnTokenBody env =
        (.ok .zeroTokenBalance,
         (claimStep env).2 ++ (executeJupiterSwap (b - env.minBalanceSol) env.swap).2) := by
      simp [buyAndBurnTokenBody, hclaim, hbal, hgt, hswap, hzero]
    have hw : buyAndBurnToken env =
        (.zeroTokenBalance,
         (claimStep env).2 ++ (executeJupiterSwap (b - env.minBalanceSol) env.swap).2) := by
      simp [buyAndBurnToken, hbody]
    refine ⟨by simp [hw], ?_, ?_⟩
    · intro a hmem
      rw [hw] at hmem
      simp at hmem
      rcases hmem with hmem | hmem
      · have := claimStep_trace_only env _ hmem
        simp at this
      · have := swap_trace_shape (b - env.minBalanceSol) env.swap _ hmem
        simp at this
    · intro hmem
      rw [hw] at hmem
      simp at hmem
      rcases hmem with hmem | hmem
      · have := claimStep_trace_only env _ hmem
        simp at this
      · have := swap_trace_shape (b - env.minBalanceSol) env.swap _ hmem
        simp at this
  · intro env pre
    cases env
    rfl

/-- C3: in the buy-and-burn cycle the burn instruction is built with
exactly the freshly re-read post-swap token balance; in the daily
half-burn the instruction is built with `tokenBalance / 2` (integer
division, so truncated), leaving `b - b / 2`; for the odd balance 7 the
burn amount is 3 and the remainder 4. -/
theorem C3_burn_amount_policy :
    (∀ (env : CycleEnv) (b : Int) (txid : String),
      (claimStep env).1 = .ok () →
      env.getBalance = .ok b →
      ¬(b - env.minBalanceSol ≤ 0) →
      (executeJupiterSwap (b - env.minBalanceSol) env.swap).1 = .success txid →
      getTokenAccountBalance env.tokenAccountPostSwap ≠ 0 →
      Effect.burnBuilt (getTokenAccountBalance env.tokenAccountPostSwap) ∈
        (buyAndBurnToken env).2) ∧
    (∀ (env : DailyBurn.Env),
      getTokenAccountBalance env.tokenAccount ≠ 0 →
      Effect.burnBuilt (getTokenAccountBalance env.tokenAccount / 2) ∈
        (DailyBurn.burnHalfTokenBalance env).2 ∧
      getTokenAccountBalance env.tokenAccount - getTokenAccountBalance env.tokenAccount / 2 +
        getTokenAccountBalance env.tokenAccount / 2 = getTokenAccountBalance env.tokenAccount) ∧
    ((7 : Nat) / 2 = 3 ∧ 7 - 7 / 2 = 4) := by
  refine ⟨?_, ?_, by decide⟩
  · intro env b txid hclaim hbal hgt hswap htb
    rw [buyAndBurnToken_trace]
    simp only [buyAndBurnTokenBody, hclaim, hbal, hgt, hswap, htb]
    repeat' split
    all_goals simp_all
  · intro env htb
    constructor
    · rw [dailyBurn_trace]
      simp only [DailyBurn.burnHalfTokenBalanceBody, htb]
      repeat' split
      all_goals simp_all
    · have : getTokenAccountBalance env.tokenAccount / 2 ≤ getTokenAccountBalance env.tokenAccount :=
        Nat.div_le_self _ _
      omega

/-- A burn-instruction construction appearing anywhere in a buy-and-burn
cycle trace carries exactly the post-swap token balance, and that balance
passed the non-zero check. -/
lemma buyAndBurn_burnBuilt_inv (env : CycleEnv) (a : Nat)
    (hmem : Effect.burnBuilt a ∈ (buyAndBurnToken env).2) :
    a = getTokenAccountBalance env.tokenAccountPostSwap ∧
      getTokenAccountBalance env.tokenAccountPostSwap ≠ 0 := by
  rw [buyAndBurnToken_trace] at hmem
  rcases hc : (claimStep env).1 with e | u
  · have ht : (buyAndBurnTokenBody env).2 = (claimStep env).2 := by
      simp [buyAndBurnTokenBody, hc]
    rw [ht] at hmem
    have := claimStep_trace_only env _ hmem
    simp at this
  · rcases hbal : env.getBalance with e | b
    · have ht : (buyAndBurnTokenBody env).2 = (claimStep env).2 := by
        simp [buyAndBurnTokenBody, hc, hbal]
      rw [ht] at hmem
      have := claimStep_trace_only env _ hmem
      simp at this
    · by_cases hle : b - env.minBalanceSol ≤ 0
      · have ht : (buyAndBurnTokenBody env).2 = (claimStep env).2 := by
          simp [buyAndBurnTokenBody, hc, hbal, hle]
        rw [ht] at hmem
        have := claimStep_trace_only env _ hmem
        simp at this
      · cases hs : (executeJupiterSwap (b - env.minBalanceSol) env.swap).1 with
        | noRoute =>
          have ht : (buyAndBurnTokenBody env).2 =
              (claimStep env).2 ++ (executeJupiterSwap (b - env.minBalanceSol) env.swap).2 := by
            simp [buyAndBurnTokenBody, hc, hbal, hle, hs]
          rw [ht] at hmem
          rcases List.mem_append.mp hmem with h | h
          · have := claimStep_trace_only env _ h
            simp at this
          · have := swap_trace_shape (b - env.minBalanceSol) env.swap _ h
            simp at this
        | failed m =>
          have ht : (buyAndBurnTokenBody env).2 =
              (claimStep env).2 ++ (executeJupiterSwap (b - env.minBalanceSol) env.swap).2 := by
            simp [buyAndBurnTokenBody, hc, hbal, hle, hs]
          rw [ht] at hmem
          rcases List.mem_append.mp hmem with h | h
          · have := claimStep_trace_only env _ h
            simp at this
          · have := swap_trace_shape (b - env.minBalanceSol) env.swap _ h
            simp at this
        | success txid =>
          by_cases hz : getTokenAccountBalance env.tokenAccountPostSwap = 0
          · have ht : (buyAndBurnTokenBody env).2 =
                (claimStep env).2 ++ (executeJupiterSwap (b - env.minBalanceSol) env.swap).2 := by
              simp [buyAndBurnTokenBody, hc, hbal, hle, hs, hz]
            rw [ht] at hmem
            rcases List.mem_append.mp hmem with h | h
            · have := claimStep_trace_only env _ h
              simp at this
            · have := swap_trace_shape (b - env.minBalanceSol) env.swap _ h
              simp at this
          · have htr : (buyAndBurnTokenBody env).2 =
                (claimStep env).2 ++ (executeJupiterSwap (b - env.minBalanceSol) env.swap).2 ++
                  [Effect.burnBuilt (getTokenAccountBalance env.tokenAccountPostSwap)] ∨
              (buyAndBurnTokenBody env).2 =
                (claimStep env).2 ++ (executeJupiterSwap (b - env.minBalanceSol) env.swap).2 ++
                  [Effect.burnBuilt (getTokenAccountBalance env.tokenAccountPostSwap)] ++
                  [Effect.burnTxSent] := by
              simp only [buyAndBurnTokenBody, hc, hbal, hle, hs, hz]
              repeat' split
              all_goals simp_all
            rcases htr with ht | ht <;> rw [ht] at hmem <;> simp at hmem <;>
              [rcases hmem with h | h | h; rcases hmem with h | h | h]
            all_goals first
              | (exact ⟨h, hz⟩)
              | (have hq := claimStep_trace_only env _ h; simp at hq)
              | (have hq := swap_trace_shape (b - env.minBalanceSol) env.swap _ h; simp at hq)

/-- C4 (amended): in the full-balance buy-and-burn cycle every amount
passed to the burn-instruction builder is strictly positive, and in the
half-balance cycle it is strictly positive whenever the balance is at
least 2; but a half-balance cycle with balance exactly 1 passes the
zero-balance check and invokes the builder with amount 0. -/
theorem C4_burn_amount_positive :
    (∀ (env : CycleEnv) (a : Nat),
      Effect.burnBuilt a ∈ (buyAndBurnToken env).2 → 0 < a) ∧
    (∀ (env : DailyBurn.Env) (a : Nat),
      2 ≤ getTokenAccountBalance env.tokenAccount →
      Effect.burnBuilt a ∈ (DailyBurn.burnHalfTokenBalance env).2 → 0 < a) ∧
    (∀ (env : DailyBurn.Env),
      getTokenAccountBalance env.tokenAccount = 1 →
      Effect.burnBuilt 0 ∈ (DailyBurn.burnHalfTokenBalance env).2) := by
  refine ⟨?_, ?_, ?_⟩
  · intro env a hmem
    have h := buyAndBurn_burnBuilt_inv env a hmem
    omega
  · intro env a h2 hmem
    rw [dailyBurn_trace] at hmem
    have hne : getTokenAccountBalance env.tokenAccount ≠ 0 := by omega
    simp only [DailyBurn.burnHalfTokenBalanceBody, hne] at hmem
    repeat' split at hmem
    all_goals simp_all
    all_goals omega
  · intro env h1
    rw [dailyBurn_trace]
    have h12 : (1 : Nat) / 2 = 0 := rfl
    simp only [DailyBurn.burnHalfTokenBalanceBody, h1, h12]
    repeat' split
    all_goals simp_all

/-- C10: for every positive token balance `b`, the half-balance burn
builds the burn instruction with `b / 2`, the remainder `b - b / 2` is at
least 1 (the account is never emptied), and for `b = 1` the burn amount is
0 and the balance is unchanged. -/
theorem C10_half_burn_remainder :
    ∀ (env : DailyBurn.Env) (b : Nat),
      getTokenAccountBalance env.tokenAccount = b → 0 < b →
      Effect.burnBuilt (b / 2) ∈ (DailyBurn.burnHalfTokenBalance env).2 ∧
      1 ≤ b - b / 2 ∧
      (b = 1 → b / 2 = 0 ∧ b - b / 2 = b) := by
  intro env b hb hpos
  refine ⟨?_, by omega, by omega⟩
  rw [dailyBurn_trace]
  have hne : b ≠ 0 := by omega
  simp only [DailyBurn.burnHalfTokenBalanceBody, hb, hne]
  repeat' split
  all_goals simp_all

/-- C8: with reward-claim enabled, a failing claim transaction is caught
inside `claimPumpFunCreatorFee` (which still returns normally after
submitting), and the whole cycle proceeds to exactly the same result and
effect trace it reaches when the claim transaction succeeds. -/
theorem C8_claim_failure_nonfatal :
    (∀ (env : CycleEnv) (e : JsError) (s : String),
      env.pumpswapReward = true →
      buyAndBurnToken { env with claim := { env.claim with sendAndConfirm := .error e } } =
        buyAndBurnToken { env with claim := { env.claim with sendAndConfirm := .ok s } }) ∧
    (∀ (cEnv : ClaimEnv) (bh : String) (e : JsError),
      (rpcWithRetry cEnv.blockhashAttempts 5 500).1 = .ok bh →
      cEnv.sendAndConfirm = .error e →
      (claimPumpFunCreatorFee cEnv).1 = .ok () ∧
      (claimPumpFunCreatorFee cEnv).2 = [Effect.claimSubmitted]) := by
  constructor
  · intro env e s hreward
    have hcl : claimPumpFunCreatorFee { env.claim with sendAndConfirm := .error e } =
        claimPumpFunCreatorFee { env.claim with sendAndConfirm := .ok s } := by
      simp only [claimPumpFunCreatorFee]
    cases env
    simp only at hreward hcl
    subst hreward
    simp only [buyAndBurnToken, buyAndBurnTokenBody, claimStep, hcl]
  · intro cEnv bh e hbh hsend
    constructor <;> simp [claimPumpFunCreatorFee, hbh, hsend]

/-- C9: every error thrown anywhere inside a cycle body — in the
buy-and-burn cycle and in both daily half-burn variants — is caught at the
cycle boundary and converted into a reported error outcome carrying the
error's message, rather than propagating to the scheduler. -/
theorem C9_boundary_catch :
    (∀ (env : CycleEnv) (e : JsError),
      (buyAndBurnTokenBody env).1 = .error e →
      (buyAndBurnToken env).1 = CycleResult.errorCaught e.message) ∧
    (∀ (env : DailyBurn.Env) (e : JsError),
      (DailyBurn.burnHalfTokenBalanceBody env).1 = .error e →
      (DailyBurn.burnHalfTokenBalance env).1 = DailyBurn.Result.errorCaught e.message) ∧
    (∀ (env : DailyBurnTweet.Env) (e : JsError),
      DailyBurnTweet.burnHalfTokenBalanceBody env = .error e →
      DailyBurnTweet.burnHalfTokenBalance env = DailyBurn.Result.errorCaught e.message) := by
  refine ⟨?_, ?_, ?_⟩
  · intro env e h
    unfold buyAndBurnToken
    rcases hb : buyAndBurnTokenBody env with ⟨r, tr⟩
    rw [hb] at h
    simp at h
    subst h
    simp
  · intro env e h
    unfold DailyBurn.burnHalfTokenBalance
    rcases hb : DailyBurn.burnHalfTokenBalanceBody env with ⟨r, tr⟩
    rw [hb] at h
    simp at h
    subst h
    simp
  · intro env e h
    unfold DailyBurnTweet.burnHalfTokenBalance
    rw [h]

/-- C1 (amended): `rpcWithRetry` and `fetchWithRetry` retry only on a
rate-limit signal (a message containing "429", respectively HTTP response
status 429), sleeping `baseDelay * 2 ^ attempt` before each retry with
attempt starting at 0; any other error propagates immediately with zero
retries; and exhausting the attempts raises the distinct terminal
"Max retries exceeded." error. The burn-submission retry path of the
daily-burn variant does NOT follow this policy: its `retry` helper retries
on every error with a fixed delay and, once attempts are exhausted,
rethrows the last underlying error itself. -/
theorem C1_retry_policy :
    (∀ (α : Type) (fn : Nat → Except JsError α) (m d : Nat) (e : JsError), 0 < m →
      fn 0 = .error e → strIncludes e.message "429" = false →
      rpcWithRetry fn m d = (.error e, [])) ∧
    (∀ (α : Type) (fn : Nat → Except JsError α) (m d k : Nat) (v : α), k < m →
      (∀ i, i < k → resultIs429 (fn i) = true) → fn k = .ok v →
      rpcWithRetry fn m d = (.ok v, (List.range k).map fun j => d * 2 ^ j)) ∧
    (∀ (α : Type) (fn : Nat → Except JsError α) (m d : Nat),
      (∀ i, i < m → resultIs429 (fn i) = true) →
      rpcWithRetry fn m d =
        (.error { message := "Max retries exceeded.", responseStatus := none },
         (List.range m).map fun j => d * 2 ^ j)) ∧
    (∀ (α : Type) (method : String) (doGet doPost : Nat → Except JsError α) (m d : Nat)
        (e : JsError), (method = "GET" ∨ method = "POST") → 0 < m →
      axiosDispatch method doGet doPost 0 = .error e →
      (e.responseStatus == some 429) = false →
      fetchWithRetry method doGet doPost m d = (.error e, [])) ∧
    (∀ (α : Type) (method : String) (doGet doPost : Nat → Except JsError α) (m d k : Nat)
        (v : α), (method = "GET" ∨ method = "POST") → k < m →
      (∀ i, i < k → resultStatus429 (axiosDispatch method doGet doPost i) = true) →
      axiosDispatch method doGet doPost k = .ok v →
      fetchWithRetry method doGet doPost m d =
        (.ok v, (List.range k).map fun j => d * 2 ^ j)) ∧
    (∀ (α : Type) (method : String) (doGet doPost : Nat → Except JsError α) (m d : Nat),
      (method = "GET" ∨ method = "POST") →
      (∀ i, i < m → resultStatus429 (axiosDispatch method doGet doPost i) = true) →
      fetchWithRetry method doGet doPost m d =
        (.error { message := "Max retries exceeded.", responseStatus := none },
         (List.range m).map fun j => d * 2 ^ j)) ∧
    (∀ (α : Type) (fn : Nat → Except JsError α) (r d k : Nat) (v : α), k < r →
      (∀ i, i < k → resultIsErr (fn i) = true) → fn k = .ok v →
      retry fn r d = (.ok (some v), List.replicate k d)) ∧
    (∀ (α : Type) (fn : Nat → Except JsError α) (r d : Nat) (es : Nat → JsError), 0 < r →
      (∀ i, i < r → fn i = .error (es i)) →
      retry fn r d = (.error (es (r - 1)), List.replicate (r - 1) d)) := by
  refine ⟨?_, ?_, ?_, ?_, ?_, ?_, ?_, ?_⟩
  · intro α fn m d e hm h0 h429
    match m, hm with
    | m + 1, _ => exact rpcGo_non429 fn d 0 m e h0 h429
  · intro α fn m d k v hk h429 hok
    have h := rpcGo_success_after fn d v k 0 m hk
      (fun i hi => by rw [Nat.zero_add]; exact h429 i hi)
      (by rw [Nat.zero_add]; exact hok)
    simpa [rpcWithRetry, Nat.zero_add] using h
  · intro α fn m d h429
    have h := rpcGo_exhaust fn d m 0
      (fun i hi => by rw [Nat.zero_add]; exact h429 i hi)
    simpa [rpcWithRetry, Nat.zero_add] using h
  · intro α method doGet doPost m d e hm hpos h0 h429
    match m, hpos with
    | m + 1, _ => exact fetchGo_non429 method doGet doPost d 0 m e hm h0 h429
  · intro α method doGet doPost m d k v hm hk h429 hok
    have h := fetchGo_success_after method doGet doPost d v hm k 0 m hk
      (fun i hi => by rw [Nat.zero_add]; exact h429 i hi)
      (by rw [Nat.zero_add]; exact hok)
    simpa [fetchWithRetry, Nat.zero_add] using h
  · intro α method doGet doPost m d hm h429
    have h := fetchGo_exhaust method doGet doPost d hm m 0
      (fun i hi => by rw [Nat.zero_add]; exact h429 i hi)
    simpa [fetchWithRetry, Nat.zero_add] using h
  · intro α fn r d k v hk herr hok
    have h := retryGo_success_after fn d v k 0 r hk
      (fun i hi => by rw [Nat.zero_add]; exact herr i hi)
      (by rw [Nat.zero_add]; exact hok)
    simpa [retry, Nat.zero_add] using h
  · intro α fn r d es hr herr
    have h := retryGo_exhaust fn d es r 0 hr
      (fun i hi => by rw [Nat.zero_add]; exact herr i hi)
    simpa [retry, Nat.zero_add] using h

/-- Attempt outcomes exercising the daily-burn `retry` helper: a
non-rate-limit error on the first attempt, success on the second. -/
def c1fn : Nat → Except JsError Nat := fun i =>
  if i = 0 then .error { message := "ECONNRESET", responseStatus := none } else .ok 7

/-- C1 counterexample: at the burn-submission retry path, the `retry`
helper receives a non-rate-limit error (no "429" anywhere) on its first
attempt and, contrary to the claim, does not propagate it immediately with
zero retries: it sleeps the fixed 5000 ms delay and returns the second
attempt's success. -/
theorem C1_retry_policy_counterexample :
    strIncludes "ECONNRESET" "429" = false ∧
    retry c1fn 3 5000 = (.ok (some 7), [5000]) ∧
    retry c1fn 3 5000 ≠ (.error { message := "ECONNRESET", responseStatus := none }, []) := by
  refine ⟨by decide, by decide, by decide⟩

/-- Attempt outcomes: an RPC error with no rate-limit signal. -/
def wRpcBoom : Nat → Except JsError Nat := fun _ =>
  .error { message := "connection refused", responseStatus := none }

/-- Attempt outcomes: two rate-limited RPC attempts, then success. -/
def wRpc429 : Nat → Except JsError Nat := fun i =>
  if i < 2 then .error { message := "Server responded with 429 Too Many Requests", responseStatus := none }
  else .ok 7

/-- Attempt outcomes: every RPC attempt rate-limited. -/
def wRpcAll429 : Nat → Except JsError Nat := fun _ =>
  .error { message := "429", responseStatus := none }

/-- Attempt outcomes: one HTTP 429, then success. -/
def wFetchGet : Nat → Except JsError Nat := fun i =>
  if i < 1 then .error { message := "Request failed", responseStatus := some 429 } else .ok 3

/-- Attempt outcomes: the unused POST transport. -/
def wFetchPost : Nat → Except JsError Nat := fun _ =>
  .error { message := "unused", responseStatus := none }

/-- Attempt outcomes: an HTTP 500, not retried. -/
def wFetchBad : Nat → Except JsError Nat := fun _ =>
  .error { message := "Request failed", responseStatus := some 500 }

/-- Attempt outcomes: every HTTP attempt rate-limited. -/
def wFetchAll429 : Nat → Except JsError Nat := fun _ =>
  .error { message := "Request failed", responseStatus := some 429 }

/-- Attempt outcomes: one generic submission failure, then success. -/
def wRetrySucc : Nat → Except JsError Nat := fun i =>
  if i < 1 then .error { message := "blockhash not found", responseStatus := none } else .ok 9

/-- Attempt outcomes: every submission attempt fails the same way. -/
def wRetryFail : Nat → Except JsError Nat := fun _ =>
  .error { message := "Transaction simulation failed", responseStatus := none }

/-- The constant error sequence matching `wRetryFail`. -/
def wRetryErrs : Nat → JsError := fun _ =>
  { message := "Transaction simulation failed", responseStatus := none }

/-- C1 witness: the amended retry-policy theorem applied at concrete
attempt sequences for all three executors. -/
theorem C1_retry_policy_witness :
    rpcWithRetry wRpcBoom 5 500 =
      (.error { message := "connection refused", responseStatus := none }, []) ∧
    rpcWithRetry wRpc429 5 500 = (.ok 7, [500, 1000]) ∧
    rpcWithRetry wRpcAll429 3 100 =
      (.error { message := "Max retries exceeded.", responseStatus := none }, [100, 200, 400]) ∧
    fetchWithRetry "GET" wFetchBad wFetchPost 5 500 =
      (.error { message := "Request failed", responseStatus := some 500 }, []) ∧
    fetchWithRetry "GET" wFetchGet wFetchPost 5 500 = (.ok 3, [500]) ∧
    fetchWithRetry "GET" wFetchAll429 wFetchPost 2 500 =
      (.error { message := "Max retries exceeded.", responseStatus := none }, [500, 1000]) ∧
    retry wRetrySucc 3 5000 = (.ok (some 9), [5000]) ∧
    retry wRetryFail 3 5000 =
      (.error { message := "Transaction simulation failed", responseStatus := none },
       [5000, 5000]) := by
  refine ⟨?_, ?_, ?_, ?_, ?_, ?_, ?_, ?_⟩
  · exact C1_retry_policy.1 Nat wRpcBoom 5 500 _ (by omega) rfl (by decide)
  · have h := C1_retry_policy.2.1 Nat wRpc429 5 500 2 7 (by omega) (by decide) (by decide)
    have hl : (List.range 2).map (fun j => 500 * 2 ^ j) = [500, 1000] := by decide
    rw [hl] at h
    exact h
  · have h := C1_retry_policy.2.2.1 Nat wRpcAll429 3 100 (by decide)
    have hl : (List.range 3).map (fun j => 100 * 2 ^ j) = [100, 200, 400] := by decide
    rw [hl] at h
    exact h
  · exact C1_retry_policy.2.2.2.1 Nat "GET" wFetchBad wFetchPost 5 500 _ (Or.inl rfl)
      (by omega) (by decide) (by decide)
  · have h := C1_retry_policy.2.2.2.2.1 Nat "GET" wFetchGet wFetchPost 5 500 1 3 (Or.inl rfl)
      (by omega) (by decide) (by decide)
    have hl : (List.range 1).map (fun j => 500 * 2 ^ j) = [500] := by decide
    rw [hl] at h
    exact h
  · have h := C1_retry_policy.2.2.2.2.2.1 Nat "GET" wFetchAll429 wFetchPost 2 500 (Or.inl rfl)
      (by decide)
    have hl : (List.range 2).map (fun j => 500 * 2 ^ j) = [500, 1000] := by decide
    rw [hl] at h
    exact h
  · have h := C1_retry_policy.2.2.2.2.2.2.1 Nat wRetrySucc 3 5000 1 9 (by omega)
      (by decide) (by decide)
    have hl : List.replicate 1 5000 = [5000] := by decide
    rw [hl] at h
    exact h
  · have h := C1_retry_policy.2.2.2.2.2.2.2 Nat wRetryFail 3 5000 wRetryErrs (by omega)
      (by decide)
    have hl : List.replicate (3 - 1) 5000 = [5000, 5000] := by decide
    rw [hl] at h
    exact h

/-- A claim environment whose blockhash fetch and submission succeed. -/
def wClaim : ClaimEnv :=
  { blockhashAttempts := fun _ => .ok "bh"
    sendAndConfirm := .ok "claimsig" }

/-- A claim environment whose claim transaction submission fails. -/
def wCF : ClaimEnv :=
  { wClaim with sendAndConfirm := .error { message := "claim failed", responseStatus := none } }

/-- A swap environment in which every step succeeds, with one route. -/
def wSwapOk : SwapEnv :=
  { quoteGet := fun _ => .ok { routes := some [()] }
    quotePost := fun _ => .error { message := "unused", responseStatus := none }
    swapInstructionsFetch := .ok "blob"
    deserializeTx := .ok ()
    sendTransaction := .ok "swaptx"
    confirmTransaction := .ok () }

/-- A fully successful cycle environment: 1 SOL balance, 0.01 SOL reserve,
post-swap token balance 1000000. -/
def wEnvBase : CycleEnv :=
  { pumpswapReward := false
    claim := wClaim
    getBalance := .ok 1000000000
    minBalanceSol := 10000000
    swap := wSwapOk
    tokenAccountPreSwap := .error { message := "could not find account", responseStatus := none }
    tokenAccountPostSwap := .ok 1000000
    burnBlockhashAttempts := fun _ => .ok "bh2"
    burnSend := .ok "burntx"
    burnConfirm := .ok () }

/-- The base cycle environment with a balance below the reserve. -/
def wEnvC2 : CycleEnv := { wEnvBase with getBalance := .ok 5000000 }

/-- The base cycle environment with an empty route collection. -/
def wEnvC5 : CycleEnv :=
  { wEnvBase with swap := { wSwapOk with quoteGet := fun _ => .ok { routes := some [] } } }

/-- The base cycle environment with a missing post-swap token account. -/
def wEnvC6 : CycleEnv :=
  { wEnvBase with
      tokenAccountPostSwap := .error { message := "could not find account", responseStatus := none } }

/-- The base cycle environment with reward claiming enabled. -/
def wEnvC8 : CycleEnv := { wEnvBase with pumpswapReward := true }

/-- The base cycle environment whose balance read throws. -/
def wEnvC9 : CycleEnv :=
  { wEnvBase with getBalance := .error { message := "rpc down", responseStatus := none } }

/-- A daily-burn environment with token balance 1. -/
def wDaily1 : DailyBurn.Env :=
  { tokenAccount := .ok 1, blockhash := .ok "bh", sendAndConfirm := .ok "sig" }

/-- A daily-burn environment with token balance 7. -/
def wDaily7 : DailyBurn.Env :=
  { tokenAccount := .ok 7, blockhash := .ok "bh", sendAndConfirm := .ok "sig" }

/-- A daily-burn environment with token balance 9. -/
def wDaily9 : DailyBurn.Env :=
  { tokenAccount := .ok 9, blockhash := .ok "bh", sendAndConfirm := .ok "sig" }

/-- A daily-burn environment whose burn submission throws. -/
def wDailyFail : DailyBurn.Env :=
  { tokenAccount := .ok 10, blockhash := .ok "bh"
    sendAndConfirm := .error { message := "send failed", responseStatus := none } }

/-- A tweeting daily-burn environment whose burn submission fails on every
retry attempt. -/
def wDailyTweet : DailyBurnTweet.Env :=
  { tokenAccount := .ok 10
    submitAttempts := fun _ =>
      .error { message := "Transaction simulation failed", responseStatus := none }
    tweetAttempts := fun _ => .ok () }

/-- C2 witness: the insufficient-balance theorem applied to a concrete
cycle with balance 5000000 below the 10000000 reserve. -/
theorem C2_insufficient_balance_aborts_witness :
    (buyAndBurnToken wEnvC2).1 = CycleResult.insufficientBalance ∧
    (∀ a : Int, Effect.quoteRequested a ∉ (buyAndBurnToken wEnvC2).2) ∧
    Effect.swapTxSent ∉ (buyAndBurnToken wEnvC2).2 :=
  C2_insufficient_balance_aborts wEnvC2 5000000 rfl rfl (by decide)

/-- C3 witness: the burn-amount-policy theorem applied to a concrete
successful cycle (full balance 1000000 burnt) and a concrete half-burn
with the odd balance 7 (amount 3). -/
theorem C3_burn_amount_policy_witness :
    Effect.burnBuilt 1000000 ∈ (buyAndBurnToken wEnvBase).2 ∧
    Effect.burnBuilt 3 ∈ (DailyBurn.burnHalfTokenBalance wDaily7).2 := by
  constructor
  · exact C3_burn_amount_policy.1 wEnvBase 1000000000 "swaptx" rfl rfl (by decide) (by decide)
      (by decide)
  · exact (C3_burn_amount_policy.2.1 wDaily7 (by decide)).1

/-- C4 witness: the amended positivity theorem applied to the concrete
full-balance cycle, to a half-burn with balance 7, and to the balance-1
half-burn that reaches the builder with amount 0. -/
theorem C4_burn_amount_positive_witness :
    (0 : Nat) < 1000000 ∧ (0 : Nat) < 3 ∧
    Effect.burnBuilt 0 ∈ (DailyBurn.burnHalfTokenBalance wDaily1).2 := by
  refine ⟨?_, ?_, ?_⟩
  · exact C4_burn_amount_positive.1 wEnvBase 1000000 (by decide)
  · exact C4_burn_amount_positive.2.1 wDaily7 3 (by decide) (by decide)
  · exact C4_burn_amount_positive.2.2 wDaily1 rfl

/-- C5 witness: the no-route theorem applied to a concrete cycle whose
quote returns an empty route collection. -/
theorem C5_no_route_aborts_witness :
    (buyAndBurnToken wEnvC5).1 = CycleResult.noRoute ∧
    (buyAndBurnToken wEnvC5).2 = (claimStep wEnvC5).2 ++
      [Effect.quoteRequested (1000000000 - 10000000)] ∧
    Effect.swapInstructionsRequested ∉ (buyAndBurnToken wEnvC5).2 ∧
    Effect.swapTxSent ∉ (buyAndBurnToken wEnvC5).2 ∧
    Effect.burnTxSent ∉ (buyAndBurnToken wEnvC5).2 :=
  C5_no_route_aborts wEnvC5 1000000000 { routes := some [] } rfl rfl (by decide) (by decide)
    (Or.inr rfl)

/-- C6 witness: the zero-token-balance theorem applied to a concrete cycle
whose post-swap token account is missing (hence reads 0). -/
theorem C6_zero_token_balance_aborts_witness :
    (buyAndBurnToken wEnvC6).1 = CycleResult.zeroTokenBalance ∧
    (∀ a : Nat, Effect.burnBuilt a ∉ (buyAndBurnToken wEnvC6).2) ∧
    Effect.burnTxSent ∉ (buyAndBurnToken wEnvC6).2 :=
  C6_zero_token_balance_aborts.1 wEnvC6 1000000000 "swaptx" rfl rfl (by decide) (by decide) rfl

/-- C8 witness: the non-fatal-claim theorem applied to a concrete cycle
with reward claiming enabled and to a concrete failing claim. -/
theorem C8_claim_failure_nonfatal_witness :
    buyAndBurnToken { wEnvC8 with claim := { wEnvC8.claim with
        sendAndConfirm := .error { message := "claim failed", responseStatus := none } } } =
      buyAndBurnToken { wEnvC8 with claim := { wEnvC8.claim with
        sendAndConfirm := .ok "claimsig" } } ∧
    (claimPumpFunCreatorFee wCF).1 = .ok () ∧
    (claimPumpFunCreatorFee wCF).2 = [Effect.claimSubmitted] := by
  refine ⟨?_, ?_, ?_⟩
  · exact C8_claim_failure_nonfatal.1 wEnvC8
      { message := "claim failed", responseStatus := none } "claimsig" rfl
  · exact (C8_claim_failure_nonfatal.2 wCF "bh"
      { message := "claim failed", responseStatus := none } (by decide) rfl).1
  · exact (C8_claim_failure_nonfatal.2 wCF "bh"
      { message := "claim failed", responseStatus := none } (by decide) rfl).2

/-- C9 witness: the boundary-catch theorem applied to a concrete throwing
balance read, a concrete throwing burn submission, and a concrete
retry-exhausted tweeting burn. -/
theorem C9_boundary_catch_witness :
    (buyAndBurnToken wEnvC9).1 = CycleResult.errorCaught "rpc down" ∧
    (DailyBurn.burnHalfTokenBalance wDailyFail).1 = DailyBurn.Result.errorCaught "send failed" ∧
    DailyBurnTweet.burnHalfTokenBalance wDailyTweet =
      DailyBurn.Result.errorCaught "Transaction simulation failed" := by
  refine ⟨?_, ?_, ?_⟩
  · exact C9_boundary_catch.1 wEnvC9 { message := "rpc down", responseStatus := none } (by decide)
  · exact C9_boundary_catch.2.1 wDailyFail
      { message := "send failed", responseStatus := none } (by decide)
  · exact C9_boundary_catch.2.2 wDailyTweet
      { message := "Transaction simulation failed", responseStatus := none } (by decide)

/-- C10 witness: the remainder theorem applied to a concrete half-burn
with balance 9 (burns 4, leaves 5). -/
theorem C10_half_burn_remainder_witness :
    Effect.burnBuilt (9 / 2) ∈ (DailyBurn.burnHalfTokenBalance wDaily9).2 ∧
    1 ≤ 9 - 9 / 2 ∧ ((9 : Nat) = 1 → 9 / 2 = 0 ∧ 9 - 9 / 2 = 9) :=
  C10_half_burn_remainder wDaily9 9 rfl (by omega)

/-- C4 counterexample: in the half-balance cycle with token balance
exactly 1, the zero-balance guard passes and the burn-instruction builder
is invoked with amount 0 — refuting the claim that the builder is never
invoked with a zero amount. -/
theorem C4_zero_amount_counterexample :
    getTokenAccountBalance wDaily1.tokenAccount = 1 ∧
    Effect.burnBuilt 0 ∈ (DailyBurn.burnHalfTokenBalance wDaily1).2 := by
  refine ⟨by decide, by decide⟩
